import Mathlib

/-!
# Verification of the A2A Task Orchestration Engine

A shallow embedding of the task-orchestration code of `A2aServer`
(`src/transport/a2a/server.ts` together with the types of
`src/transport/a2a/types.ts` and `src/core/types.ts`), and proofs about its
lifecycle operations: `createTask`, `getTask`, `continueTask`, `cancelTask`,
`subscribeToTask`, and the private `processTask`, `parseSkillInvocation`,
`executeSkill`, `handleNaturalLanguageRequest`, `completeTask`, `failTask`,
`emitEvent`, `sendWebhook`.

Modelling conventions:
* `Map` objects become association lists with functional update.
* `new Date().toISOString()` becomes a logical clock (`Nat`) held in the
  server state; every public operation reads one `now` and advances the clock.
* `uuid()` becomes a counter in the server state.
* JavaScript records (`Record<string, unknown>`) become association lists of
  `String × String` with first-occurrence lookup; object spread
  `{...a, ...b}` is modelled by its lookup semantics (keys of `b` win).
  Leaf values are opaque to the engine, hence plain strings.
* The business-logic handlers (signals / media-buy / creative) are external
  collaborators; a handler invocation is an oracle `Handlers.run` returning
  either the result object of the corresponding `executeSkill` case
  (its `status`/`message`/`data` fields) or a thrown error.  The per-case
  response-field plumbing of `executeSkill` carries no logic and is folded
  into the oracle's `data`; the routing, the enabled-protocol checks, the
  `result.status || 'completed'` default, the `build_creative` artifact and
  the default branch are modelled exactly.
* Asynchrony: `createTask` fires `processTask` without awaiting it, so in the
  model `createTask` only stores the task and `processTask` is a separate
  step; a scenario sequences them explicitly (possibly with `subscribeToTask`
  or `cancelTask` in between, which is exactly what the event loop allows).
* `sendWebhook` only logs; the model records each attempted payload in
  `ServerState.webhooks`.
-/

namespace Adcp

/-- Association-list lookup (first occurrence wins, like a JS `Map`/object). -/
def alGet {κ α : Type} [BEq κ] (m : List (κ × α)) (k : κ) : Option α :=
  (m.find? (fun p => p.1 == k)).map (·.2)

/-- Association-list insert/replace (functional model of `Map.set`). -/
def alInsert {κ α : Type} [BEq κ] : List (κ × α) → κ → α → List (κ × α)
  | [], k, v => [(k, v)]
  | (k', v') :: t, k, v =>
      if k' == k then (k, v) :: t else (k', v') :: alInsert t k v

/-- Association-list removal (functional model of `Map.delete`). -/
def alErase {κ α : Type} [BEq κ] (m : List (κ × α)) (k : κ) : List (κ × α) :=
  m.filter (fun p => ¬(p.1 == k))

/-- Lookup with default. -/
def alGetD {κ α : Type} [BEq κ] (m : List (κ × α)) (k : κ) (d : α) : α :=
  (alGet m k).getD d

/-- Opaque leaf value of a JS record; the engine never inspects values. -/
abbrev Val := String

/-- A JS `Record<string, unknown>`: association list, first occurrence wins. -/
abbrev Rec := List (String × Val)

/-- Lookup in a record. -/
def recGet (r : Rec) (k : String) : Option Val := alGet r k

/-- Object spread `{...a, ...b}` modelled by its lookup semantics: every key
of `b` wins over `a`; keys of `a` not present in `b` keep `a`'s value. -/
def recSpread (a b : Rec) : Rec :=
  a.filter (fun p => (recGet b p.1).isNone) ++ b

/-- Task states (`TaskStatus` in `src/core/types.ts`). -/
inductive TaskState
  | completed
  | working
  | submitted
  | inputRequired
  | failed
  | canceled
  | rejected
  | authRequired
  | unknownState
deriving DecidableEq, Repr

/-- One message part (`MessagePart` in `src/transport/a2a/types.ts`). -/
inductive MessagePart
  | text (t : String)
  | data (d : Rec)
  | file (uri : String) (mimeType : Option String) (name : Option String)
deriving DecidableEq, Repr

/-- A collected file reference of a `SkillInvocation`. -/
structure FileRef where
  uri : String
  mimeType : Option String
  name : Option String
deriving DecidableEq, Repr

/-- `A2aSkillInvocation`. -/
structure A2aSkillInvocation where
  skill : String
  parameters : Rec
  context : Option String
  files : Option (List FileRef)
deriving DecidableEq, Repr

/-- Webhook configuration supplied at task creation (`A2aWebhookConfig`). -/
structure A2aWebhookConfig where
  url : String
deriving DecidableEq, Repr

/-- An inbound task request (`A2aTaskRequest`). -/
structure A2aTaskRequest where
  skill : Option String
  parts : List MessagePart
  correlationId : Option String := none
  contextId : Option String := none
  webhook : Option A2aWebhookConfig := none
deriving DecidableEq, Repr

/-- The body of `parseSkillInvocation`'s `for` loop: a text part overwrites
`context`, a data part is spread-merged into `parameters`, a file part is
appended to `files`. -/
def parseStep (acc : Rec × Option String × List FileRef) (part : MessagePart) :
    Rec × Option String × List FileRef :=
  match part with
  | .text t => (acc.1, some t, acc.2.2)
  | .data d => (recSpread acc.1 d, acc.2.1, acc.2.2)
  | .file uri mt name => (acc.1, acc.2.1, acc.2.2 ++ [⟨uri, mt, name⟩])

/-- `A2aServer.parseSkillInvocation`: `request.skill || 'default'` plus one
pass over the parts; `files` is `undefined` when no file part came. -/
def parseSkillInvocation (request : A2aTaskRequest) : A2aSkillInvocation :=
  let skill := request.skill.getD "default"
  let res := request.parts.foldl parseStep ([], none, [])
  { skill := skill
    parameters := res.1
    context := res.2.1
    files := if res.2.2.isEmpty then none else some res.2.2 }

/-- The texts of the text parts, in order. -/
def textParts (parts : List MessagePart) : List String :=
  parts.filterMap fun p => match p with | .text t => some t | _ => none

/-- The structured-data parts, in order. -/
def dataParts (parts : List MessagePart) : List Rec :=
  parts.filterMap fun p => match p with | .data d => some d | _ => none

/-- The file parts, in order. -/
def fileParts (parts : List MessagePart) : List FileRef :=
  parts.filterMap fun p =>
    match p with | .file u m n => some ⟨u, m, n⟩ | _ => none

/-- Per-key reading of the spec's merge rule: scanning the structured-data
parts in list order, a part that has `k` overrides the accumulated value, so
the last data part containing `k` wins. -/
def lastDataValue (parts : List MessagePart) (k : String) : Option Val :=
  (dataParts parts).foldl (fun acc d => (recGet d k).orElse fun _ => acc) none

/-- Message metadata (`A2aMessageMetadata`). -/
structure MsgMeta where
  timestamp : Nat
  messageId : String
  correlationId : Option String := none
deriving DecidableEq, Repr

/-- Message role. -/
inductive Role
  | user
  | agent
deriving DecidableEq, Repr

/-- One conversation turn (`A2aMessage`). -/
structure A2aMessage where
  role : Role
  parts : List MessagePart
  metadata : Option MsgMeta := none
deriving DecidableEq, Repr

/-- Artifact metadata. -/
structure ArtifactMeta where
  artifactId : String
  createdAt : Nat
deriving DecidableEq, Repr

/-- A named output object (`A2aArtifact`). -/
structure A2aArtifact where
  name : String
  parts : List MessagePart
  metadata : ArtifactMeta
deriving DecidableEq, Repr

/-- Task status record (`A2aTaskStatus`). -/
structure A2aTaskStatus where
  state : TaskState
  message : String
  timestamp : Nat
deriving DecidableEq, Repr

/-- Task metadata (`A2aTaskMetadata`). -/
structure A2aTaskMetadata where
  skill : Option String
  principalId : Option String
  contextId : Option String
deriving DecidableEq, Repr

/-- The tracked unit of work (`A2aTask`). -/
structure A2aTask where
  id : String
  status : A2aTaskStatus
  messages : List A2aMessage
  artifacts : List A2aArtifact
  createdAt : Nat
  updatedAt : Nat
  metadata : A2aTaskMetadata
deriving DecidableEq, Repr

/-- Response shape (`A2aTaskResponse`). -/
structure A2aTaskResponse where
  taskId : String
  status : A2aTaskStatus
  messages : Option (List A2aMessage) := none
  artifacts : Option (List A2aArtifact) := none
deriving DecidableEq, Repr

/-- A server-sent event (`SseEvent`), the `type` discriminant folded into the
constructor; each carries the `timestamp` field. -/
inductive SseEvent
  | status (st : A2aTaskStatus) (ts : Nat)
  | message (m : A2aMessage) (ts : Nat)
  | artifact (a : A2aArtifact) (ts : Nat)
  | error (code : String) (msg : String) (ts : Nat)
  | complete (r : A2aTaskResponse) (ts : Nat)
deriving DecidableEq, Repr

/-- A recorded webhook delivery attempt (`A2aWebhookPayload` as passed to
`sendWebhook`). -/
structure A2aWebhookPayload where
  taskId : String
  event : String
  status : A2aTaskStatus
  timestamp : Nat
  data : Option Rec := none
deriving DecidableEq, Repr

/-- The whole mutable state of one `A2aServer` plus the observation logs the
proofs need: what every SSE listener received and every webhook attempt.
Listeners are identified by numbers; `logs` maps a listener to the events its
callback got, oldest first.  `busSets` is the store of JS `Set` objects
(identified by allocation number) and `busByTask` the `taskListeners` map from
task id to the `Set` object currently registered for it — the indirection is
needed because an unsubscribe closure captures the `Set` object itself, which
can outlive its `taskListeners` entry. -/
structure ServerState where
  tasks : List (String × A2aTask)
  busSets : List (Nat × List Nat)
  busByTask : List (String × Nat)
  logs : List (Nat × List SseEvent)
  webhooks : List A2aWebhookPayload
  nextSetId : Nat
  nextUuid : Nat
  clock : Nat
deriving DecidableEq, Repr

/-- The freshly constructed server: no tasks, no listeners. -/
def ServerState.init : ServerState :=
  { tasks := [], busSets := [], busByTask := [], logs := [], webhooks := []
    nextSetId := 0, nextUuid := 0, clock := 0 }

/-- The events listener `l` has received so far, oldest first. -/
def logsOf (s : ServerState) (l : Nat) : List SseEvent :=
  (alGet s.logs l).getD []

/-- Deliver one event to one listener callback (append to its log). -/
def deliverTo (s : ServerState) (l : Nat) (e : SseEvent) : ServerState :=
  { s with logs := alInsert s.logs l (logsOf s l ++ [e]) }

/-- The listeners `emitEvent` will iterate for a task id: the members of the
`Set` the `taskListeners` map currently holds for it, registration order,
empty when the map has no entry. -/
def listenersFor (s : ServerState) (taskId : String) : List Nat :=
  match alGet s.busByTask taskId with
  | none => []
  | some setId => (alGet s.busSets setId).getD []

/-- `A2aServer.emitEvent`: look up the listener set for the task and invoke
every callback in registration order; a throwing callback is ignored, so
delivery is per-listener. -/
def emitEvent (s : ServerState) (taskId : String) (e : SseEvent) : ServerState :=
  (listenersFor s taskId).foldl (fun acc l => deliverTo acc l e) s

/-- JS `Set.add`: no duplicates, insertion order kept. -/
def setAdd (ls : List Nat) (l : Nat) : List Nat :=
  if l ∈ ls then ls else ls ++ [l]

/-- The token an unsubscribe closure captures: the task id and the `Set`
object (by its allocation number) it will operate on, plus the listener. -/
structure UnsubToken where
  taskId : String
  setId : Nat
  listener : Nat
deriving DecidableEq, Repr

/-- `A2aServer.subscribeToTask`: get or create the listener set for the task,
add the listener, send the current status directly to this listener if the
task exists, and return the unsubscribe closure (as a token). -/
def subscribeToTask (s : ServerState) (taskId : String) (l : Nat) :
    ServerState × UnsubToken :=
  let (s, setId) :=
    match alGet s.busByTask taskId with
    | some sid => (s, sid)
    | none =>
        let sid := s.nextSetId
        ({ s with nextSetId := sid + 1
                  busSets := alInsert s.busSets sid []
                  busByTask := alInsert s.busByTask taskId sid }, sid)
  let s := { s with
    busSets := alInsert s.busSets setId (setAdd ((alGet s.busSets setId).getD []) l) }
  let s :=
    match alGet s.tasks taskId with
    | some t => deliverTo s l (.status t.status s.clock)
    | none => s
  ({ s with clock := s.clock + 1 }, ⟨taskId, setId, l⟩)

/-- The unsubscribe closure returned by `subscribeToTask`: delete the listener
from the captured `Set` object, and if that set is now empty delete the
`taskListeners` entry for the captured task id — whatever set that entry
currently holds. -/
def unsubscribe (s : ServerState) (u : UnsubToken) : ServerState :=
  match alGet s.busSets u.setId with
  | none => s
  | some ls =>
      let ls' := ls.filter (fun x => ¬(x == u.listener))
      let s := { s with busSets := alInsert s.busSets u.setId ls' }
      if ls'.isEmpty then { s with busByTask := alErase s.busByTask u.taskId }
      else s

/-- What one handler invocation comes back with: the fields of the result
object the corresponding `executeSkill` case builds (`status?`, `message`,
and the case's `data` wrap folded into `data`), or a thrown `AdcpError`, or a
thrown plain `Error`. -/
inductive HandlerOutcome
  | ok (status : Option TaskState) (message : String) (data : Rec)
  | adcpError (code : String) (message : String)
  | otherError (message : String)

/-- The handler configuration: which protocols are enabled
(`config.handlers.signals` / `.mediaBuy` / `.creative` present), and the
oracle for an actual handler invocation, keyed by skill name. -/
structure Handlers where
  signals : Bool
  mediaBuy : Bool
  creative : Bool
  run : String → Rec → Option String → HandlerOutcome

/-- An error escaping `executeSkill` (a thrown `AdcpError` or plain `Error`),
caught by `processTask`. -/
inductive ExecError
  | adcp (code : String) (message : String)
  | other (message : String)
deriving DecidableEq, Repr

/-- `error instanceof AdcpError ? error.code : 'INTERNAL_ERROR'`. -/
def ExecError.codeOf : ExecError → String
  | .adcp c _ => c
  | .other _ => "INTERNAL_ERROR"

/-- `error instanceof Error ? error.message : 'Unknown error'`. -/
def ExecError.messageOf : ExecError → String
  | .adcp _ m => m
  | .other m => m

/-- A successful `executeSkill` result. -/
structure ExecResult where
  status : TaskState
  message : String
  data : Rec
  artifact : Option (String × Rec)
deriving DecidableEq, Repr

/-- The skills routed to the signals handler. -/
def signalsSkills : List String :=
  ["get_signals", "signals.get_signals", "activate_signal", "signals.activate_signal"]

/-- The skills routed to the media-buy handler. -/
def mediaBuySkills : List String :=
  ["get_products", "media_buy.get_products",
   "create_media_buy", "media_buy.create_media_buy",
   "update_media_buy", "media_buy.update_media_buy",
   "get_media_buy_delivery", "media_buy.get_media_buy_delivery",
   "sync_creatives", "media_buy.sync_creatives"]

/-- The creative skill whose case attaches a `creative_manifest` artifact. -/
def buildCreativeSkills : List String := ["build_creative", "creative.build_creative"]

/-- The creative preview skill. -/
def previewCreativeSkills : List String := ["preview_creative", "creative.preview_creative"]

/-- Invoke the handler oracle and build the case result; every case applies
`result.status || 'completed'`, and the `build_creative` case additionally
returns a `creative_manifest` artifact. -/
def callHandler (h : Handlers) (inv : A2aSkillInvocation) (withArtifact : Bool) :
    Except ExecError ExecResult :=
  match h.run inv.skill inv.parameters inv.context with
  | .ok st msg data =>
      .ok { status := st.getD .completed, message := msg, data := data
            artifact := if withArtifact then some ("creative_manifest", data) else none }
  | .adcpError c m => .error (.adcp c m)
  | .otherError m => .error (.other m)

/-- Is `pat` an infix of `cs`? -/
def listInfix (pat : List Char) : List Char → Bool
  | [] => pat.isEmpty
  | c :: rest => pat.isPrefixOf (c :: rest) || listInfix pat rest

/-- JS `String.prototype.includes`. -/
def strIncludes (s pat : String) : Bool := listInfix pat.toList s.toList

/-- `A2aServer.handleNaturalLanguageRequest`: keyword routing on the
lowercased context; a matching keyword group is only taken when its handler
is enabled, else control falls through to the next group and finally to the
catch-all `completed` reply. -/
def handleNaturalLanguageRequest (h : Handlers) (context : String) (parameters : Rec) :
    Except ExecError ExecResult :=
  let lc := context.toLower
  if (strIncludes lc "signal" || strIncludes lc "audience" || strIncludes lc "segment")
      && h.signals then
    match h.run "get_signals" parameters (some context) with
    | .ok _ msg data => .ok ⟨.completed, msg, data, none⟩
    | .adcpError c m => .error (.adcp c m)
    | .otherError m => .error (.other m)
  else if (strIncludes lc "product" || strIncludes lc "inventory"
      || strIncludes lc "campaign") && h.mediaBuy then
    match h.run "get_products" parameters (some context) with
    | .ok _ msg data => .ok ⟨.completed, msg, data, none⟩
    | .adcpError c m => .error (.adcp c m)
    | .otherError m => .error (.other m)
  else
    .ok ⟨.completed,
         "I understood your request but could not determine the appropriate action.",
         parameters, none⟩

/-- `A2aServer.executeSkill`: route on the skill name; a skill of a disabled
protocol throws `NOT_IMPLEMENTED ('<X> protocol not enabled')`; an unknown
skill falls to natural-language handling when a text context exists and
otherwise throws `NOT_IMPLEMENTED ('Unknown skill: <skill>')`. -/
def executeSkill (h : Handlers) (inv : A2aSkillInvocation) :
    Except ExecError ExecResult :=
  if signalsSkills.contains inv.skill then
    if h.signals then callHandler h inv false
    else .error (.adcp "NOT_IMPLEMENTED" "Signals protocol not enabled")
  else if mediaBuySkills.contains inv.skill then
    if h.mediaBuy then callHandler h inv false
    else .error (.adcp "NOT_IMPLEMENTED" "Media Buy protocol not enabled")
  else if buildCreativeSkills.contains inv.skill then
    if h.creative then callHandler h inv true
    else .error (.adcp "NOT_IMPLEMENTED" "Creative protocol not enabled")
  else if previewCreativeSkills.contains inv.skill then
    if h.creative then callHandler h inv false
    else .error (.adcp "NOT_IMPLEMENTED" "Creative protocol not enabled")
  else
    match inv.context with
    | some c => handleNaturalLanguageRequest h c inv.parameters
    | none => .error (.adcp "NOT_IMPLEMENTED" ("Unknown skill: " ++ inv.skill))

/-- `A2aServer.createTask`: allocate a task id, store the task in state
`working` with the inbound message appended, kick off `processTask`
asynchronously (modelled as the separate step `processTask`), and return the
id and initial status at once. -/
def createTask (s : ServerState) (request : A2aTaskRequest)
    (principal : Option String) : ServerState × String × A2aTaskStatus :=
  let now := s.clock
  let taskId := "task-" ++ toString s.nextUuid
  let msgId := "msg-" ++ toString (s.nextUuid + 1)
  let status : A2aTaskStatus := ⟨.working, "Processing request", now⟩
  let task : A2aTask :=
    { id := taskId
      status := status
      messages := [{ role := .user, parts := request.parts
                     metadata := some ⟨now, msgId, request.correlationId⟩ }]
      artifacts := []
      createdAt := now
      updatedAt := now
      metadata := ⟨request.skill, principal, request.contextId⟩ }
  ({ s with tasks := alInsert s.tasks taskId task
            nextUuid := s.nextUuid + 2
            clock := now + 1 },
   taskId, status)

/-- `A2aServer.getTask`: read-only snapshot. -/
def getTask (s : ServerState) (taskId : String) : Option A2aTaskResponse :=
  (alGet s.tasks taskId).map fun t =>
    { taskId := t.id, status := t.status
      messages := some t.messages, artifacts := some t.artifacts }

/-- `A2aServer.completeTask`: append the response message, set the status to
the given state (`'Task completed successfully'` when `completed`, else
`'Processing'`), and emit a `message` then a `complete` event. -/
def completeTask (s : ServerState) (taskId : String) (responseMessage : A2aMessage)
    (status : TaskState) : ServerState :=
  match alGet s.tasks taskId with
  | none => s
  | some task =>
      let now := s.clock
      let task :=
        { task with
            messages := task.messages ++ [responseMessage]
            status := ⟨status,
                       if status = .completed then "Task completed successfully"
                       else "Processing", now⟩
            updatedAt := now }
      let s := { s with tasks := alInsert s.tasks taskId task }
      let s := emitEvent s taskId (.message responseMessage now)
      emitEvent s taskId
        (.complete ⟨task.id, task.status, some task.messages, some task.artifacts⟩ now)

/-- `A2aServer.failTask`: set the status to `failed` with the error message
and emit an `error` event carrying the code and message. -/
def failTask (s : ServerState) (taskId : String) (code msg : String) : ServerState :=
  match alGet s.tasks taskId with
  | none => s
  | some task =>
      let now := s.clock
      let task := { task with status := ⟨.failed, msg, now⟩, updatedAt := now }
      let s := { s with tasks := alInsert s.tasks taskId task }
      emitEvent s taskId (.error code msg now)

/-- `A2aServer.sendWebhook`: fire-and-forget; the model records the attempt. -/
def sendWebhook (s : ServerState) (payload : A2aWebhookPayload) : ServerState :=
  { s with webhooks := s.webhooks ++ [payload] }

/-- `A2aServer.cancelTask`: `false` when the task is missing or its state is
`completed` or `failed`; otherwise set the status to `failed` with message
`'Task cancelled'`, emit an `error` event with code `CANCELLED`, and return
`true`. -/
def cancelTask (s : ServerState) (taskId : String) : ServerState × Bool :=
  match alGet s.tasks taskId with
  | none => (s, false)
  | some task =>
      if task.status.state = .completed ∨ task.status.state = .failed then (s, false)
      else
        let now := s.clock
        let task := { task with status := ⟨.failed, "Task cancelled", now⟩
                                updatedAt := now }
        let s := { s with tasks := alInsert s.tasks taskId task, clock := now + 1 }
        (emitEvent s taskId (.error "CANCELLED" "Task was cancelled" now), true)

/-- `A2aServer.continueTask`: `none` when the task is missing; otherwise,
with no terminal-state check, append the new user message, set the status
back to `working`, emit a `status` event, then (the continuation being a
placeholder) complete the task with an acknowledgement message, and return
the resulting snapshot. -/
def continueTask (s : ServerState) (taskId : String) (parts : List MessagePart) :
    ServerState × Option A2aTaskResponse :=
  match alGet s.tasks taskId with
  | none => (s, none)
  | some task =>
      let now := s.clock
      let msgId := "msg-" ++ toString s.nextUuid
      let task :=
        { task with
            messages := task.messages ++
              [{ role := .user, parts := parts, metadata := some ⟨now, msgId, none⟩ }]
            status := ⟨.working, "Processing additional input", now⟩
            updatedAt := now }
      let s := { s with tasks := alInsert s.tasks taskId task
                        nextUuid := s.nextUuid + 1 }
      let s := emitEvent s taskId (.status task.status now)
      let s := completeTask s taskId
        { role := .agent, parts := [.text "Acknowledged additional input."] } .completed
      let s := { s with clock := s.clock + 1 }
      match alGet s.tasks taskId with
      | none => (s, none)
      | some t => (s, some ⟨t.id, t.status, some t.messages, some t.artifacts⟩)

/-- `A2aServer.processTask`: the asynchronous execution step scheduled by
`createTask`.  Everything runs inside one `try`: parse the invocation,
execute the skill, on success optionally append and announce the artifact,
complete the task with the response message (at the handler's declared
status) and send a `completed` webhook when configured; on any thrown error,
fail the task with the mapped code and send a `failed` webhook when
configured.  Total by construction: no error escapes. -/
def processTask (h : Handlers) (s : ServerState) (taskId : String)
    (request : A2aTaskRequest) : ServerState :=
  match alGet s.tasks taskId with
  | none => s
  | some task =>
      let now := s.clock
      let inv := parseSkillInvocation request
      match executeSkill h inv with
      | .ok result =>
          let msgId := "msg-" ++ toString s.nextUuid
          let responseMessage : A2aMessage :=
            { role := .agent
              parts := [.text result.message, .data result.data]
              metadata := some ⟨now, msgId, none⟩ }
          let (s, task) : ServerState × A2aTask :=
            match result.artifact with
            | none => (s, task)
            | some (aname, adata) =>
                let artifact : A2aArtifact :=
                  { name := aname, parts := [.data adata]
                    metadata := ⟨"artifact-" ++ toString (s.nextUuid + 1), now⟩ }
                let task := { task with artifacts := task.artifacts ++ [artifact] }
                let s := { s with tasks := alInsert s.tasks taskId task }
                (emitEvent s taskId (.artifact artifact now), task)
          let s := completeTask s taskId responseMessage result.status
          let s :=
            match request.webhook with
            | none => s
            | some _ =>
                let st : A2aTaskStatus :=
                  match alGet s.tasks taskId with
                  | some t => t.status
                  | none => task.status
                sendWebhook s
                  { taskId := taskId, event := "completed", status := st
                    timestamp := now, data := some result.data }
          { s with nextUuid := s.nextUuid + 2, clock := s.clock + 1 }
      | .error e =>
          let s := failTask s taskId e.codeOf e.messageOf
          let s :=
            match request.webhook with
            | none => s
            | some _ =>
                let st : A2aTaskStatus :=
                  match alGet s.tasks taskId with
                  | some t => t.status
                  | none => task.status
                sendWebhook s
                  { taskId := taskId, event := "failed", status := st
                    timestamp := now, data := none }
          { s with clock := s.clock + 1 }

/-- The concatenation of the four routing tables: every skill name
`executeSkill` recognizes. -/
def knownSkills : List String :=
  signalsSkills ++ mediaBuySkills ++ buildCreativeSkills ++ previewCreativeSkills

/-- `request.skill || 'default'`. -/
def skillNameOf (req : A2aTaskRequest) : String := req.skill.getD "default"

/-- A listener `l` currently registered on the event bus for `taskId`. -/
def Registered (s : ServerState) (taskId : String) (l : Nat) : Prop :=
  ∃ sid ls, alGet s.busByTask taskId = some sid ∧
    alGet s.busSets sid = some ls ∧ l ∈ ls

/-- Handler configuration with every protocol enabled and every invocation
succeeding with message `"ok"`, data `{x: 1}` and no declared status. -/
def okHandlers : Handlers :=
  { signals := true, mediaBuy := true, creative := true
    run := fun _ _ _ => .ok none "ok" [("x", "1")] }

/-- Handlers whose invocations succeed declaring the non-terminal status
`input-required`. -/
def inputRequiredHandlers : Handlers :=
  { signals := true, mediaBuy := true, creative := true
    run := fun _ _ _ => .ok (some .inputRequired) "need more input" [] }

/-- Handlers whose invocations succeed declaring status `canceled`. -/
def canceledHandlers : Handlers :=
  { signals := true, mediaBuy := true, creative := true
    run := fun _ _ _ => .ok (some .canceled) "stopped" [] }

/-- A well-formed `get_signals` request with one text part. -/
def reqSignals : A2aTaskRequest := { skill := some "get_signals", parts := [.text "hi"] }

/-- A request with zero parts and no skill name. -/
def reqEmpty : A2aTaskRequest := { skill := none, parts := [] }

/-- The `get_signals` request with a webhook configured. -/
def reqWebhook : A2aTaskRequest :=
  { skill := some "get_signals", parts := [.text "hi"]
    webhook := some ⟨"https://example.test/hook"⟩ }

/-- Fresh server after `createTask reqSignals` (task `task-0` in `working`;
execution not yet run). -/
def sCreated : ServerState := (createTask ServerState.init reqSignals none).1

/-- … then listener `7` subscribes to `task-0`. -/
def sSubscribed : ServerState := (subscribeToTask sCreated "task-0" 7).1

/-- … then the asynchronous execution step completes successfully. -/
def sCompleted : ServerState := processTask okHandlers sSubscribed "task-0" reqSignals

/-- `createTask reqSignals`, then `cancelTask` before the execution step ran. -/
def sCancelledMidflight : ServerState := (cancelTask sCreated "task-0").1

/-- … and the execution step then finishes after the cancellation. -/
def sReopened : ServerState :=
  processTask okHandlers sCancelledMidflight "task-0" reqSignals

/-- Fresh server after `createTask reqEmpty`. -/
def sCreatedEmpty : ServerState := (createTask ServerState.init reqEmpty none).1

/-- … then the execution step runs (and fails on the unknown skill). -/
def sFailedEmpty : ServerState := processTask okHandlers sCreatedEmpty "task-0" reqEmpty

/-- A task driven into state `canceled` by a handler that declares it. -/
def sCanceledState : ServerState :=
  processTask canceledHandlers sCreated "task-0" reqSignals

/-- `createTask reqWebhook` (webhook configured). -/
def sCreatedWebhook : ServerState := (createTask ServerState.init reqWebhook none).1

/-- … then the execution step completes with declared status `input-required`. -/
def sInputRequired : ServerState :=
  processTask inputRequiredHandlers sCreatedWebhook "task-0" reqWebhook

/-- … or the execution step fails (no protocol enabled). -/
def sFailedWebhook : ServerState :=
  processTask ⟨false, false, false, fun _ _ _ => .ok none "ok" []⟩
    sCreatedWebhook "task-0" reqWebhook

/-- Listener `1` subscribes to the never-created task id `"t"`. -/
def subFirst : ServerState × UnsubToken := subscribeToTask ServerState.init "t" 1

/-- … listener `1` unsubscribes. -/
def sAfterUnsubOnce : ServerState := unsubscribe subFirst.1 subFirst.2

/-- … listener `2` then subscribes to the same id. -/
def subSecond : ServerState × UnsubToken := subscribeToTask sAfterUnsubOnce "t" 2

/-- … and listener `1`'s unsubscribe function is called a second time. -/
def sDoubleUnsub : ServerState := unsubscribe subSecond.1 subFirst.2

/-- A probe event published under task id `"t"`. -/
def evProbe : SseEvent := .error "PROBE" "probe" 99

/-- A request with two text parts. -/
def reqTwoTexts : A2aTaskRequest :=
  { skill := some "s", parts := [.text "a", .text "b"] }

/-- A request mixing text, data and file parts, with a key conflict between
the two data parts. -/
def reqMixed : A2aTaskRequest :=
  { skill := some "s"
    parts := [.text "a", .data [("k", "1"), ("j", "2")], .text "b",
              .data [("k", "3")], .file "u" none none] }

/-- Handler configuration with no protocol enabled. -/
def noProtocolHandlers : Handlers :=
  { signals := false, mediaBuy := false, creative := false
    run := fun _ _ _ => .ok none "ok" [] }

/-- The task record `createTask reqSignals` stores (the value of
`alGet sCreated.tasks "task-0"`). -/
def task0Created : A2aTask :=
  { id := "task-0"
    status := ⟨.working, "Processing request", 0⟩
    messages := [{ role := .user, parts := [.text "hi"]
                   metadata := some ⟨0, "msg-1", none⟩ }]
    artifacts := []
    createdAt := 0
    updatedAt := 0
    metadata := ⟨some "get_signals", none, none⟩ }

/-- The task record `createTask reqWebhook` stores. -/
def task0CreatedWebhook : A2aTask :=
  { id := "task-0"
    status := ⟨.working, "Processing request", 0⟩
    messages := [{ role := .user, parts := [.text "hi"]
                   metadata := some ⟨0, "msg-1", none⟩ }]
    artifacts := []
    createdAt := 0
    updatedAt := 0
    metadata := ⟨some "get_signals", none, none⟩ }

/-- The inbound user message of the `reqSignals` scenario. -/
def msgUserHi : A2aMessage :=
  { role := .user, parts := [.text "hi"], metadata := some ⟨0, "msg-1", none⟩ }

/-- The engine-role response message `processTask okHandlers` builds. -/
def msgAgentOk : A2aMessage :=
  { role := .agent, parts := [.text "ok", .data [("x", "1")]]
    metadata := some ⟨2, "msg-2", none⟩ }

/-- A toy completed task, used to instantiate general theorems. -/
def toyDoneTask : A2aTask :=
  { id := "t", status := ⟨.completed, "done", 0⟩, messages := [], artifacts := []
    createdAt := 0, updatedAt := 0, metadata := ⟨none, none, none⟩ }

/-- A server holding only `toyDoneTask`. -/
def sTerminalToy : ServerState :=
  { ServerState.init with tasks := [("t", toyDoneTask)] }

/-! ## Association-list lemmas -/

theorem alGet_alInsert_self {κ α : Type} [BEq κ] [LawfulBEq κ]
    (m : List (κ × α)) (k : κ) (v : α) : alGet (alInsert m k v) k = some v := by
  induction m with
  | nil => simp [alInsert, alGet]
  | cons p t ih =>
      by_cases h : p.1 == k
      · simp [alInsert, h, alGet]
      · simpa [alInsert, h, alGet, List.find?_cons, h] using ih

theorem alGet_alInsert_ne {κ α : Type} [BEq κ] [LawfulBEq κ]
    (m : List (κ × α)) (k k' : κ) (v : α) (h : k ≠ k') :
    alGet (alInsert m k v) k' = alGet m k' := by
  induction m with
  | nil => simp [alInsert, alGet, List.find?_cons, h]
  | cons p t ih =>
      by_cases hp : p.1 == k
      · have : ¬(k == k') := by simpa using h
        simp [alInsert, hp, alGet, List.find?_cons, this]
        have : p.1 = k := by simpa using hp
        simp [this, show ¬(k == k') by simpa using h]
      · by_cases hk' : p.1 == k'
        · simp [alInsert, hp, alGet, List.find?_cons, hk']
        · simpa [alInsert, hp, alGet, List.find?_cons, hk'] using ih

theorem alInsert_of_alGet_eq {κ α : Type} [BEq κ] [LawfulBEq κ]
    (m : List (κ × α)) (k : κ) (v : α) (h : alGet m k = some v) :
    alInsert m k v = m := by
  induction m with
  | nil => simp [alGet] at h
  | cons p t ih =>
      by_cases hp : p.1 == k
      · have h1 : p.1 = k := by simpa using hp
        have h2 : p.2 = v := by
          simp [alGet, List.find?_cons, hp] at h; exact h
        cases p
        simp_all [alInsert]
      · simp [alGet, List.find?_cons, hp] at h
        simp [alInsert, hp, ih (by simpa [alGet] using h)]

theorem alGet_alErase_self {κ α : Type} [BEq κ] [LawfulBEq κ]
    (m : List (κ × α)) (k : κ) : alGet (alErase m k) k = none := by
  induction m with
  | nil => simp [alErase, alGet]
  | cons p t ih =>
      by_cases hp : p.1 == k
      · simp only [alErase, List.filter, hp, Bool.not_true]
        exact ih
      · have : alErase (p :: t) k = p :: alErase t k := by
          simp [alErase, List.filter, hp]
        rw [this]
        unfold alGet
        rw [List.find?_cons_of_neg _ (by simpa using hp)]
        exact ih

theorem alErase_of_alGet_none {κ α : Type} [BEq κ] [LawfulBEq κ]
    (m : List (κ × α)) (k : κ) (h : alGet m k = none) : alErase m k = m := by
  induction m with
  | nil => simp [alErase]
  | cons p t ih =>
      by_cases hp : p.1 == k
      · simp [alGet, List.find?_cons, hp] at h
      · simp [alGet, List.find?_cons, hp] at h
        simp [alErase, hp, List.filter]
        have := ih (by simpa [alGet] using h)
        simpa [alErase] using this

theorem alErase_idem {κ α : Type} [BEq κ] [LawfulBEq κ]
    (m : List (κ × α)) (k : κ) : alErase (alErase m k) k = alErase m k :=
  alErase_of_alGet_none _ _ (alGet_alErase_self m k)

theorem alInsert_idem {κ α : Type} [BEq κ] [LawfulBEq κ]
    (m : List (κ × α)) (k : κ) (v : α) :
    alInsert (alInsert m k v) k v = alInsert m k v :=
  alInsert_of_alGet_eq _ _ _ (alGet_alInsert_self m k v)

/-! ## Record-merge lemmas -/

theorem find?_filter_of_imp {α : Type} (l : List α) (q g : α → Bool)
    (h : ∀ x, q x = true → g x = true) : (l.filter g).find? q = l.find? q := by
  induction l with
  | nil => simp
  | cons x t ih =>
      by_cases hq : q x
      · simp [List.filter, h x hq, List.find?_cons, hq]
      · by_cases hg : g x
        · simpa [List.filter, hg, List.find?_cons, hq] using ih
        · simpa [List.filter, hg, List.find?_cons, hq] using ih

theorem recGet_append (a b : Rec) (k : String) :
    recGet (a ++ b) k = ((recGet a k).orElse fun _ => recGet b k) := by
  unfold recGet alGet
  rw [List.find?_append]
  cases a.find? (fun p => p.1 == k) <;> simp [Option.orElse]

theorem recGet_spread (a b : Rec) (k : String) :
    recGet (recSpread a b) k = ((recGet b k).orElse fun _ => recGet a k) := by
  unfold recSpread
  rw [recGet_append]
  cases hb : recGet b k with
  | some v =>
      have hnone : recGet (a.filter fun p => (recGet b p.1).isNone) k = none := by
        have hf : (a.filter fun p => (recGet b p.1).isNone).find?
            (fun p => p.1 == k) = none := by
          rw [List.find?_eq_none]
          intro p hp hpk
          have hg := (List.mem_filter.mp hp).2
          have hpk' : p.1 = k := by simpa using hpk
          rw [hpk', hb] at hg
          simp at hg
        show ((a.filter fun p => (recGet b p.1).isNone).find?
            (fun p => p.1 == k)).map (fun x => x.2) = none
        rw [hf]
        rfl
      rw [hnone]
      rfl
  | none =>
      have heq : recGet (a.filter fun p => (recGet b p.1).isNone) k = recGet a k := by
        unfold recGet alGet
        rw [find?_filter_of_imp]
        intro p hp
        show (recGet b p.1).isNone = true
        have hpk : p.1 = k := by simpa using hp
        rw [hpk, hb]
        rfl
      rw [heq]
      cases h : recGet a k <;> rfl

theorem recGet_foldl_spread (ds : List Rec) (a : Rec) (k : String) :
    recGet (ds.foldl recSpread a) k =
      ds.foldl (fun acc d => (recGet d k).orElse fun _ => acc) (recGet a k) := by
  induction ds generalizing a with
  | nil => rfl
  | cons d t ih => simp [List.foldl, ih (recSpread a d), recGet_spread]

/-! ## Parser characterization -/

theorem getLast?_cons_orElse {α : Type} (a : α) (l : List α) :
    (a :: l).getLast? = (l.getLast?.orElse fun _ => some a) := by
  cases l with
  | nil => rfl
  | cons b t =>
      rw [List.getLast?_cons_cons]
      have : (b :: t).getLast?.isSome := by
        rw [List.getLast?_isSome]
        simp
      cases h : (b :: t).getLast? with
      | none => rw [h] at this; simp at this
      | some x => rfl

theorem foldl_parseStep (parts : List MessagePart)
    (acc : Rec × Option String × List FileRef) :
    parts.foldl parseStep acc =
      ((dataParts parts).foldl recSpread acc.1,
       ((textParts parts).getLast?.orElse fun _ => acc.2.1),
       acc.2.2 ++ fileParts parts) := by
  induction parts generalizing acc with
  | nil => simp [dataParts, textParts, fileParts]
  | cons p t ih =>
      cases p with
      | text s =>
          rw [List.foldl_cons, ih]
          simp only [parseStep, dataParts, textParts, fileParts, List.filterMap_cons]
          rw [getLast?_cons_orElse]
          cases h : (t.filterMap fun p =>
              match p with | .text t => some t | _ => none).getLast? <;> rfl
      | data d =>
          rw [List.foldl_cons, ih]
          simp [parseStep, dataParts, textParts, fileParts, List.filterMap_cons]
      | file u mt nm =>
          rw [List.foldl_cons, ih]
          simp [parseStep, dataParts, textParts, fileParts, List.filterMap_cons]

/-! ## Event-bus lemmas -/

theorem logsOf_deliverTo (s : ServerState) (x l : Nat) (e : SseEvent) :
    logsOf (deliverTo s x e) l =
      if l = x then logsOf s l ++ [e] else logsOf s l := by
  by_cases h : l = x
  · subst h
    simp [deliverTo, logsOf, alGet_alInsert_self]
  · simp [deliverTo, logsOf, h, alGet_alInsert_ne _ _ _ _ (fun hx => h hx.symm)]

theorem foldlDeliver_tasks (ls : List Nat) (s : ServerState) (e : SseEvent) :
    (ls.foldl (fun a l => deliverTo a l e) s).tasks = s.tasks := by
  induction ls generalizing s with
  | nil => rfl
  | cons x t ih => rw [List.foldl_cons, ih]; rfl

theorem foldlDeliver_webhooks (ls : List Nat) (s : ServerState) (e : SseEvent) :
    (ls.foldl (fun a l => deliverTo a l e) s).webhooks = s.webhooks := by
  induction ls generalizing s with
  | nil => rfl
  | cons x t ih => rw [List.foldl_cons, ih]; rfl

theorem foldlDeliver_busByTask (ls : List Nat) (s : ServerState) (e : SseEvent) :
    (ls.foldl (fun a l => deliverTo a l e) s).busByTask = s.busByTask := by
  induction ls generalizing s with
  | nil => rfl
  | cons x t ih => rw [List.foldl_cons, ih]; rfl

theorem foldlDeliver_busSets (ls : List Nat) (s : ServerState) (e : SseEvent) :
    (ls.foldl (fun a l => deliverTo a l e) s).busSets = s.busSets := by
  induction ls generalizing s with
  | nil => rfl
  | cons x t ih => rw [List.foldl_cons, ih]; rfl

theorem foldlDeliver_clock (ls : List Nat) (s : ServerState) (e : SseEvent) :
    (ls.foldl (fun a l => deliverTo a l e) s).clock = s.clock := by
  induction ls generalizing s with
  | nil => rfl
  | cons x t ih => rw [List.foldl_cons, ih]; rfl

theorem logsOf_foldlDeliver_not_mem (ls : List Nat) (l : Nat) (hl : l ∉ ls)
    (s : ServerState) (e : SseEvent) :
    logsOf (ls.foldl (fun a x => deliverTo a x e) s) l = logsOf s l := by
  induction ls generalizing s with
  | nil => rfl
  | cons x t ih =>
      rw [List.foldl_cons, ih (fun h => hl (List.mem_cons_of_mem _ h))]
      rw [logsOf_deliverTo]
      have hne : l ≠ x := by
        intro h
        exact hl (by rw [h]; exact List.mem_cons_self x t)
      simp only [if_neg hne]

theorem logsOf_foldlDeliver_mem (ls : List Nat) (hnd : ls.Nodup) (l : Nat)
    (hl : l ∈ ls) (s : ServerState) (e : SseEvent) :
    logsOf (ls.foldl (fun a x => deliverTo a x e) s) l = logsOf s l ++ [e] := by
  induction ls generalizing s with
  | nil => simp at hl
  | cons x t ih =>
      rw [List.foldl_cons]
      rcases List.mem_cons.mp hl with h | h
      · subst h
        have hnotin : l ∉ t := (List.nodup_cons.mp hnd).1
        rw [logsOf_foldlDeliver_not_mem t l hnotin]
        rw [logsOf_deliverTo]
        simp
      · have hne : l ≠ x := by
          intro hx
          exact (List.nodup_cons.mp hnd).1 (hx ▸ h)
        rw [ih (List.nodup_cons.mp hnd).2 h]
        rw [logsOf_deliverTo]
        simp [hne]

theorem emitEvent_tasks (s : ServerState) (tid : String) (e : SseEvent) :
    (emitEvent s tid e).tasks = s.tasks :=
  foldlDeliver_tasks _ s e

theorem emitEvent_webhooks (s : ServerState) (tid : String) (e : SseEvent) :
    (emitEvent s tid e).webhooks = s.webhooks :=
  foldlDeliver_webhooks _ s e

theorem emitEvent_busByTask (s : ServerState) (tid : String) (e : SseEvent) :
    (emitEvent s tid e).busByTask = s.busByTask :=
  foldlDeliver_busByTask _ s e

theorem emitEvent_busSets (s : ServerState) (tid : String) (e : SseEvent) :
    (emitEvent s tid e).busSets = s.busSets :=
  foldlDeliver_busSets _ s e

theorem emitEvent_clock (s : ServerState) (tid : String) (e : SseEvent) :
    (emitEvent s tid e).clock = s.clock :=
  foldlDeliver_clock _ s e

/-- Synchronous in-order fan-out: one `emitEvent` appends the event to the
log of every listener currently registered for the task (`Set` iteration has
no duplicates, hence the `Nodup` side condition on the modelled set). -/
theorem listenersFor_eq (s : ServerState) (tid : String) (sid : Nat)
    (ls : List Nat) (h1 : alGet s.busByTask tid = some sid)
    (h2 : alGet s.busSets sid = some ls) : listenersFor s tid = ls := by
  unfold listenersFor
  simp only [h1, h2, Option.getD_some]

theorem logsOf_emitEvent_registered (s : ServerState) (tid : String)
    (sid : Nat) (ls : List Nat) (l : Nat) (e : SseEvent)
    (h1 : alGet s.busByTask tid = some sid)
    (h2 : alGet s.busSets sid = some ls)
    (hnd : ls.Nodup) (hl : l ∈ ls) :
    logsOf (emitEvent s tid e) l = logsOf s l ++ [e] := by
  unfold emitEvent
  rw [listenersFor_eq s tid sid ls h1 h2]
  exact logsOf_foldlDeliver_mem ls hnd l hl s e

/-! ## Operation-level helper lemmas -/

theorem failTask_eq (s : ServerState) (tid : String) (code msg : String)
    (task : A2aTask) (h : alGet s.tasks tid = some task) :
    failTask s tid code msg =
      emitEvent
        { s with
            tasks :=
              alInsert s.tasks tid
                { task with status := ⟨.failed, msg, s.clock⟩
                            updatedAt := s.clock } }
        tid (.error code msg s.clock) := by
  unfold failTask
  simp only [h]

theorem completeTask_eq (s : ServerState) (tid : String) (m : A2aMessage)
    (st : TaskState) (task : A2aTask) (h : alGet s.tasks tid = some task) :
    completeTask s tid m st =
      (let task' : A2aTask :=
        { task with
            messages := task.messages ++ [m]
            status := ⟨st, if st = .completed then "Task completed successfully"
                           else "Processing", s.clock⟩
            updatedAt := s.clock }
      let s' := { s with tasks := alInsert s.tasks tid task' }
      emitEvent (emitEvent s' tid (.message m s.clock)) tid
        (.complete ⟨task'.id, task'.status, some task'.messages,
          some task'.artifacts⟩ s.clock)) := by
  unfold completeTask
  simp only [h]

theorem completeTask_webhooks (s : ServerState) (tid : String) (m : A2aMessage)
    (st : TaskState) : (completeTask s tid m st).webhooks = s.webhooks := by
  unfold completeTask
  cases h : alGet s.tasks tid with
  | none => rfl
  | some task => simp only [emitEvent_webhooks]

theorem failTask_webhooks (s : ServerState) (tid : String) (code msg : String) :
    (failTask s tid code msg).webhooks = s.webhooks := by
  unfold failTask
  cases h : alGet s.tasks tid with
  | none => rfl
  | some task => simp only [emitEvent_webhooks]

theorem createTask_webhooks (s : ServerState) (req : A2aTaskRequest)
    (p : Option String) : (createTask s req p).1.webhooks = s.webhooks := rfl

theorem subscribeToTask_webhooks (s : ServerState) (tid : String) (l : Nat) :
    (subscribeToTask s tid l).1.webhooks = s.webhooks := by
  unfold subscribeToTask
  cases h1 : alGet s.busByTask tid <;>
    cases h2 : alGet s.tasks tid <;>
      simp [h1, h2, deliverTo]

theorem cancelTask_webhooks (s : ServerState) (tid : String) :
    (cancelTask s tid).1.webhooks = s.webhooks := by
  unfold cancelTask
  cases h : alGet s.tasks tid with
  | none => rfl
  | some task =>
      by_cases hterm : task.status.state = .completed ∨ task.status.state = .failed
      · simp [h, hterm]
      · simp [h, hterm, emitEvent_webhooks]

theorem continueTask_webhooks (s : ServerState) (tid : String)
    (parts : List MessagePart) : (continueTask s tid parts).1.webhooks = s.webhooks := by
  unfold continueTask
  cases h : alGet s.tasks tid with
  | none => rfl
  | some task =>
      simp only [h]
      cases h2 : alGet (completeTask
          (emitEvent { s with
              tasks := alInsert s.tasks tid
                { task with
                    messages := task.messages ++
                      [{ role := .user, parts := parts,
                         metadata := some ⟨s.clock, "msg-" ++ toString s.nextUuid, none⟩ }]
                    status := ⟨.working, "Processing additional input", s.clock⟩
                    updatedAt := s.clock }
              nextUuid := s.nextUuid + 1 } tid
            (.status ⟨.working, "Processing additional input", s.clock⟩ s.clock))
          tid { role := .agent, parts := [.text "Acknowledged additional input."] }
          .completed).tasks tid <;>
        simp [h2, completeTask_webhooks, emitEvent_webhooks]

theorem executeSkill_unknown (h : Handlers) (inv : A2aSkillInvocation)
    (hctx : inv.context = none) (hskill : inv.skill ∉ knownSkills) :
    executeSkill h inv =
      .error (.adcp "NOT_IMPLEMENTED" ("Unknown skill: " ++ inv.skill)) := by
  have hmem : inv.skill ∉ signalsSkills ∧ inv.skill ∉ mediaBuySkills ∧
      inv.skill ∉ buildCreativeSkills ∧ inv.skill ∉ previewCreativeSkills := by
    simpa [knownSkills, List.mem_append, not_or] using hskill
  obtain ⟨h1, h2, h3, h4⟩ := hmem
  unfold executeSkill
  simp [h1, h2, h3, h4, hctx]

theorem failTask_tasks_lookup (s : ServerState) (tid : String) (code msg : String)
    (task : A2aTask) (h : alGet s.tasks tid = some task) :
    alGet (failTask s tid code msg).tasks tid =
      some { task with status := ⟨.failed, msg, s.clock⟩, updatedAt := s.clock } := by
  rw [failTask_eq s tid code msg task h, emitEvent_tasks]
  exact alGet_alInsert_self _ _ _

theorem failTask_logsOf (s : ServerState) (tid : String) (code msg : String)
    (task : A2aTask) (h : alGet s.tasks tid = some task)
    (sid : Nat) (ls : List Nat) (l : Nat)
    (h1 : alGet s.busByTask tid = some sid) (h2 : alGet s.busSets sid = some ls)
    (hnd : ls.Nodup) (hl : l ∈ ls) :
    logsOf (failTask s tid code msg) l = logsOf s l ++ [.error code msg s.clock] := by
  rw [failTask_eq s tid code msg task h]
  exact logsOf_emitEvent_registered _ tid sid ls l _ h1 h2 hnd hl

theorem processTask_error_proj (h : Handlers) (s : ServerState) (tid : String)
    (req : A2aTaskRequest) (task : A2aTask) (e : ExecError)
    (hT : alGet s.tasks tid = some task)
    (hE : executeSkill h (parseSkillInvocation req) = .error e) :
    (processTask h s tid req).tasks = (failTask s tid e.codeOf e.messageOf).tasks ∧
    (processTask h s tid req).logs = (failTask s tid e.codeOf e.messageOf).logs := by
  unfold processTask
  simp only [hT, hE]
  cases req.webhook <;> simp [sendWebhook]

/-! ## Claim theorems -/

/-- C5 (counterexample): the claim says the parser makes `context` the text
of the *first* text part; on a request with two text parts `"a"` then `"b"`
the parser's loop overwrites `context` at each text part, so the result is
the *last* text `"b"`, not the first `"a"`. -/
theorem c5_parser_first_text_counterexample :
    (textParts reqTwoTexts.parts).head? = some "a" ∧
    (parseSkillInvocation reqTwoTexts).context = some "b" ∧
    (parseSkillInvocation reqTwoTexts).context ≠ (textParts reqTwoTexts.parts).head? := by
  refine ⟨rfl, rfl, ?_⟩
  decide

/-- C5 (amended): for every ordered list of Parts the parser yields `skill =
request.skill || 'default'`; `context` = the text of the **last** text part
(hence the first when there is exactly one); `parameters` = the shallow merge
of all structured-data parts in list order with later parts' keys winning on
conflict (stated per key against `lastDataValue`); `files` = all file parts
in their original order (`undefined` when there are none). -/
theorem c5_parser_amended (req : A2aTaskRequest) :
    (parseSkillInvocation req).skill = skillNameOf req ∧
    (parseSkillInvocation req).context = (textParts req.parts).getLast? ∧
    (∀ k, recGet (parseSkillInvocation req).parameters k = lastDataValue req.parts k) ∧
    (parseSkillInvocation req).files =
      (if (fileParts req.parts).isEmpty then none
       else some (fileParts req.parts)) := by
  unfold parseSkillInvocation skillNameOf
  rw [foldl_parseStep]
  refine ⟨rfl, ?_, ?_, ?_⟩
  · show ((textParts req.parts).getLast?.orElse fun _ => none) =
      (textParts req.parts).getLast?
    cases (textParts req.parts).getLast? <;> rfl
  · intro k
    show recGet ((dataParts req.parts).foldl recSpread []) k = lastDataValue req.parts k
    rw [recGet_foldl_spread]
    rfl
  · show (if ([] ++ fileParts req.parts).isEmpty then none
        else some ([] ++ fileParts req.parts)) = _
    rw [List.nil_append]

/-- C5 (witness): the amended parser theorem applied to the concrete mixed
request. -/
theorem c5_parser_amended_witness :
    (parseSkillInvocation reqMixed).context = (textParts reqMixed.parts).getLast? ∧
    recGet (parseSkillInvocation reqMixed).parameters "k" = lastDataValue reqMixed.parts "k" ∧
    (parseSkillInvocation reqMixed).files =
      (if (fileParts reqMixed.parts).isEmpty then none
       else some (fileParts reqMixed.parts)) :=
  ⟨(c5_parser_amended reqMixed).2.1,
   (c5_parser_amended reqMixed).2.2.1 "k",
   (c5_parser_amended reqMixed).2.2.2⟩

/-- C3: Continue on a terminal task is *not* rejected by the code and does
*not* leave the task unchanged: on a `completed` task, `continueTask` accepts
the call (returns a snapshot, not `null`), appends the new user message and
an acknowledgement message (2 messages → 4), and rewrites the status — the
code has no terminal-state check, contradicting the claim. -/
theorem c3_continue_terminal_not_rejected :
    ((alGet sCompleted.tasks "task-0").map fun t => t.status.state) = some .completed ∧
    ((alGet sCompleted.tasks "task-0").map fun t => t.messages.length) = some 2 ∧
    (continueTask sCompleted "task-0" [.text "more"]).2.isSome = true ∧
    ((alGet (continueTask sCompleted "task-0" [.text "more"]).1.tasks "task-0").map
        fun t => t.messages.length) = some 4 ∧
    ((alGet (continueTask sCompleted "task-0" [.text "more"]).1.tasks "task-0").map
        fun t => t.updatedAt) ≠
      ((alGet sCompleted.tasks "task-0").map fun t => t.updatedAt) := by
  refine ⟨rfl, rfl, rfl, rfl, ?_⟩
  decide

/-- C1: the terminal-state invariant does not hold in the code.  Evaluating
the engine at the cancellation race the claim describes: a task is created,
cancelled (reaching the terminal status `failed`/`"Task cancelled"` with its
single inbound message), and then the still-in-flight execution step
finishes — the code re-opens the terminal task to `completed` and appends its
result message instead of discarding the late result. -/
theorem c1_terminal_state_invariant_violated :
    ((alGet sCancelledMidflight.tasks "task-0").map fun t => t.status.state) =
      some .failed ∧
    ((alGet sCancelledMidflight.tasks "task-0").map fun t => t.status.message) =
      some "Task cancelled" ∧
    ((alGet sCancelledMidflight.tasks "task-0").map fun t => t.messages.length) =
      some 1 ∧
    ((alGet sReopened.tasks "task-0").map fun t => t.status.state) =
      some .completed ∧
    ((alGet sReopened.tasks "task-0").map fun t => t.messages.length) = some 2 := by
  exact ⟨rfl, rfl, rfl, rfl, rfl⟩

/-- C2 (counterexample): cancelling an existing non-terminal (`working`) task
returns `true` but sets `status.state` to `failed`, not to the distinct
terminal state `canceled` the claim requires. -/
theorem c2_cancel_counterexample :
    ((alGet sCreated.tasks "task-0").map fun t => t.status.state) = some .working ∧
    (cancelTask sCreated "task-0").2 = true ∧
    ((alGet (cancelTask sCreated "task-0").1.tasks "task-0").map
        fun t => t.status.state) = some .failed ∧
    ((alGet (cancelTask sCreated "task-0").1.tasks "task-0").map
        fun t => t.status.state) ≠ some .canceled := by
  refine ⟨rfl, rfl, rfl, ?_⟩
  decide

/-- C2 (amended): for every task that exists and is in a state other than
`completed` and `failed`, Cancel returns `true`, sets `status.state` to
`failed` (not `canceled`) with message `"Task cancelled"`, and delivers to
every currently registered subscriber one `error`-class event with code
`CANCELLED` and message `"Task was cancelled"` — so a deliberate cancellation
is distinguishable from a real failure only by the event's error code, not by
the task state. -/
theorem c2_cancel_amended (s : ServerState) (tid : String) (task : A2aTask)
    (h : alGet s.tasks tid = some task)
    (hc : task.status.state ≠ .completed) (hf : task.status.state ≠ .failed) :
    (cancelTask s tid).2 = true ∧
    alGet (cancelTask s tid).1.tasks tid =
      some { task with status := ⟨.failed, "Task cancelled", s.clock⟩
                       updatedAt := s.clock } ∧
    (∀ sid ls l, alGet s.busByTask tid = some sid →
      alGet s.busSets sid = some ls → ls.Nodup → l ∈ ls →
      logsOf (cancelTask s tid).1 l =
        logsOf s l ++ [.error "CANCELLED" "Task was cancelled" s.clock]) := by
  have hcond : ¬(task.status.state = .completed ∨ task.status.state = .failed) := by
    intro hor
    cases hor with
    | inl h1 => exact hc h1
    | inr h2 => exact hf h2
  unfold cancelTask
  simp only [h, if_neg hcond]
  refine ⟨trivial, ?_, ?_⟩
  · rw [emitEvent_tasks]
    exact alGet_alInsert_self _ _ _
  · intro sid ls l h1 h2 hnd hl
    exact logsOf_emitEvent_registered _ tid sid ls l _ h1 h2 hnd hl

/-- C2 (witness): the amended Cancel theorem applied to the concrete
just-created `working` task. -/
theorem c2_cancel_amended_witness :
    (cancelTask sCreated "task-0").2 = true ∧
    alGet (cancelTask sCreated "task-0").1.tasks "task-0" =
      some { task0Created with status := ⟨.failed, "Task cancelled", sCreated.clock⟩
                               updatedAt := sCreated.clock } :=
  ⟨(c2_cancel_amended sCreated "task-0" task0Created (by decide) (by decide)
      (by decide)).1,
   (c2_cancel_amended sCreated "task-0" task0Created (by decide) (by decide)
      (by decide)).2.1⟩

/-- C9 (counterexample): a task *can* reach the terminal state `canceled`
(a handler may declare `status: 'canceled'`, which `completeTask` stores
verbatim); on such a task Cancel returns `true`, mutates the task to
`failed`, and emits an event — not the claimed idempotent `false` no-op for
every terminal state. -/
theorem c9_cancel_counterexample :
    ((alGet sCanceledState.tasks "task-0").map fun t => t.status.state) =
      some .canceled ∧
    (cancelTask sCanceledState "task-0").2 = true ∧
    ((alGet (cancelTask sCanceledState "task-0").1.tasks "task-0").map
        fun t => t.status.state) = some .failed := by
  exact ⟨rfl, rfl, rfl⟩

/-- C9 (amended): Cancel is an idempotent no-op returning `false` — no event,
no mutation, the state is returned unchanged — exactly when the task does not
exist or its state is `completed` or `failed`; a task in the third terminal
state `canceled` is *not* protected (see the counterexample). -/
theorem c9_cancel_noop_amended (s : ServerState) (tid : String)
    (h : alGet s.tasks tid = none ∨
      ∃ t, alGet s.tasks tid = some t ∧
        (t.status.state = .completed ∨ t.status.state = .failed)) :
    cancelTask s tid = (s, false) := by
  unfold cancelTask
  rcases h with h | ⟨t, ht, hterm⟩
  · simp only [h]
  · simp only [ht, if_pos hterm]

/-- C9 (witness): the amended no-op theorem applied to a concrete `completed`
task. -/
theorem c9_cancel_noop_amended_witness :
    cancelTask sTerminalToy "t" = (sTerminalToy, false) :=
  c9_cancel_noop_amended sTerminalToy "t"
    (Or.inr ⟨toyDoneTask, by decide, Or.inl (by decide)⟩)

/-- After `unsubscribe`, the captured `Set` object no longer holds the
listener. -/
theorem unsubscribe_removes (X : ServerState) (u : UnsubToken) (S ls : List Nat)
    (hS : alGet X.busSets u.setId = some S)
    (hget : alGet (unsubscribe X u).busSets u.setId = some ls) :
    u.listener ∉ ls := by
  unfold unsubscribe at hget
  rw [hS] at hget
  by_cases he : (S.filter fun x => ¬(x == u.listener)).isEmpty
  · simp only [he, if_pos, alGet_alInsert_self, Option.some.injEq] at hget
    subst hget
    simp
  · simp only [he, if_neg, Bool.false_eq_true, not_false_eq_true,
      alGet_alInsert_self, Option.some.injEq] at hget
    subst hget
    simp

/-- The `Set` object a fresh subscription's token captures holds exactly the
prior members plus the listener. -/
theorem subscribe_busSets_lookup (s : ServerState) (tid : String) (l : Nat) :
    ∃ S, alGet (subscribeToTask s tid l).1.busSets
      (subscribeToTask s tid l).2.setId = some (setAdd S l) := by
  cases hb : alGet s.busByTask tid with
  | none =>
      refine ⟨[], ?_⟩
      cases ht : alGet s.tasks tid <;>
        simp [subscribeToTask, hb, ht, deliverTo, alGet_alInsert_self]
  | some sid =>
      refine ⟨(alGet s.busSets sid).getD [], ?_⟩
      cases ht : alGet s.tasks tid <;>
        simp [subscribeToTask, hb, ht, deliverTo, alGet_alInsert_self]

/-- `unsubscribe`, characterized on a state where the captured `Set` object
exists: the listener is filtered out of that set, and when the set becomes
empty the `taskListeners` entry of the captured task id is deleted. -/
theorem unsubscribe_eq (X : ServerState) (u : UnsubToken) (S : List Nat)
    (hS : alGet X.busSets u.setId = some S) :
    unsubscribe X u =
      (if (S.filter fun x => ¬(x == u.listener)).isEmpty then
        { X with
            busSets := alInsert X.busSets u.setId
              (S.filter fun x => ¬(x == u.listener))
            busByTask := alErase X.busByTask u.taskId }
      else
        { X with
            busSets := alInsert X.busSets u.setId
              (S.filter fun x => ¬(x == u.listener)) }) := by
  unfold unsubscribe
  simp only [hS]

theorem mem_setAdd_self (ls : List Nat) (l : Nat) : l ∈ setAdd ls l := by
  by_cases h : l ∈ ls
  · simp only [setAdd, if_pos h]
    exact h
  · simp [setAdd, h]

theorem filter_idem {α : Type} (p : α → Bool) (l : List α) :
    (l.filter p).filter p = l.filter p := by
  induction l with
  | nil => rfl
  | cons x t ih =>
      by_cases h : p x
      · simp [List.filter_cons, h, ih]
      · simp [List.filter_cons, h, ih]

/-- C4 (counterexample): on a request with zero Parts, `createTask` stores a
Task record (in `working`) and returns normally — the claim that no Task is
ever stored and a validation error is raised synchronously is false. -/
theorem c4_task_stored_counterexample :
    (alGet (createTask ServerState.init reqEmpty none).1.tasks "task-0").isSome
      = true ∧
    (createTask ServerState.init reqEmpty none).2.2.state = .working :=
  ⟨rfl, rfl⟩

/-- C4 (amended): a request whose skill name (after defaulting to
`'default'`) resolves to no routing case and whose Parts yield no text
context — in particular any request with zero Parts and no resolvable skill
name — is not rejected synchronously: Create Task stores the Task in
`working` and returns it, and the asynchronous execution step then
transitions that stored task to `failed` with code `NOT_IMPLEMENTED` and
message `Unknown skill: <skill>` (create-then-fail, the CapabilityNotFound
treatment, rather than validation-before-create). -/
theorem c4_create_then_fail_amended (h : Handlers) (s : ServerState)
    (req : A2aTaskRequest) (p : Option String)
    (hctx : (parseSkillInvocation req).context = none)
    (hskill : skillNameOf req ∉ knownSkills) :
    (createTask s req p).2.2.state = .working ∧
    ((alGet (createTask s req p).1.tasks (createTask s req p).2.1).map
        fun t => t.status.state) = some .working ∧
    ((alGet (processTask h (createTask s req p).1 (createTask s req p).2.1
        req).tasks (createTask s req p).2.1).map
        fun t => t.status.state) = some .failed ∧
    ((alGet (processTask h (createTask s req p).1 (createTask s req p).2.1
        req).tasks (createTask s req p).2.1).map
        fun t => t.status.message) = some ("Unknown skill: " ++ skillNameOf req) := by
  have hE : executeSkill h (parseSkillInvocation req) =
      .error (.adcp "NOT_IMPLEMENTED"
        ("Unknown skill: " ++ (parseSkillInvocation req).skill)) :=
    executeSkill_unknown h (parseSkillInvocation req) hctx hskill
  have hT : ∃ T, alGet (createTask s req p).1.tasks (createTask s req p).2.1
      = some T ∧ T.status.state = .working := by
    unfold createTask
    exact ⟨_, alGet_alInsert_self _ _ _, rfl⟩
  obtain ⟨T, hT, hTw⟩ := hT
  obtain ⟨htasks, _⟩ := processTask_error_proj h (createTask s req p).1
    (createTask s req p).2.1 req T _ hT hE
  have hft := failTask_tasks_lookup (createTask s req p).1 (createTask s req p).2.1
    "NOT_IMPLEMENTED" ("Unknown skill: " ++ (parseSkillInvocation req).skill) T hT
  refine ⟨rfl, ?_, ?_, ?_⟩
  · rw [hT]
    simp [hTw]
  · rw [htasks]
    simp only [ExecError.codeOf, ExecError.messageOf]
    rw [hft]
    rfl
  · rw [htasks]
    simp only [ExecError.codeOf, ExecError.messageOf]
    rw [hft]
    rfl

/-- C4 (witness): the amended create-then-fail theorem applied to the
concrete empty request. -/
theorem c4_create_then_fail_witness :
    (createTask ServerState.init reqEmpty none).2.2.state = .working ∧
    ((alGet (createTask ServerState.init reqEmpty none).1.tasks
        (createTask ServerState.init reqEmpty none).2.1).map
        fun t => t.status.state) = some .working ∧
    ((alGet (processTask okHandlers (createTask ServerState.init reqEmpty none).1
        (createTask ServerState.init reqEmpty none).2.1 reqEmpty).tasks
        (createTask ServerState.init reqEmpty none).2.1).map
        fun t => t.status.state) = some .failed ∧
    ((alGet (processTask okHandlers (createTask ServerState.init reqEmpty none).1
        (createTask ServerState.init reqEmpty none).2.1 reqEmpty).tasks
        (createTask ServerState.init reqEmpty none).2.1).map
        fun t => t.status.message) = some ("Unknown skill: " ++ skillNameOf reqEmpty) :=
  c4_create_then_fail_amended okHandlers ServerState.init reqEmpty none
    (by decide) (by decide)

/-- C7: every error escaping a handler is caught at the `processTask`
boundary (the model's `processTask` is a total function — nothing escapes its
execution path): when `executeSkill` throws, the task transitions to `failed`
carrying the human-readable message, a recognized `AdcpError`'s own code is
used and any other exception maps to the generic `INTERNAL_ERROR`
(`ExecError.codeOf`), and the `error` event delivered to every registered
subscriber carries that machine-readable code plus the message — so no
handler exception can leave a task stuck in `working`. -/
theorem c7_handler_errors_caught (h : Handlers) (s : ServerState) (tid : String)
    (req : A2aTaskRequest) (task : A2aTask) (e : ExecError)
    (hT : alGet s.tasks tid = some task)
    (hE : executeSkill h (parseSkillInvocation req) = .error e) :
    ((alGet (processTask h s tid req).tasks tid).map
        fun t => t.status.state) = some .failed ∧
    ((alGet (processTask h s tid req).tasks tid).map
        fun t => t.status.message) = some e.messageOf ∧
    (∀ sid ls l, alGet s.busByTask tid = some sid →
      alGet s.busSets sid = some ls → ls.Nodup → l ∈ ls →
      logsOf (processTask h s tid req) l =
        logsOf s l ++ [.error e.codeOf e.messageOf s.clock]) := by
  obtain ⟨htasks, hlogs⟩ := processTask_error_proj h s tid req task e hT hE
  have hft := failTask_tasks_lookup s tid e.codeOf e.messageOf task hT
  refine ⟨?_, ?_, ?_⟩
  · rw [htasks, hft]
    rfl
  · rw [htasks, hft]
    rfl
  · intro sid ls l h1 h2 hnd hl
    have : logsOf (processTask h s tid req) l =
        logsOf (failTask s tid e.codeOf e.messageOf) l := by
      unfold logsOf
      rw [hlogs]
    rw [this]
    exact failTask_logsOf s tid e.codeOf e.messageOf task hT sid ls l h1 h2 hnd hl

/-- C7 (witness): the boundary theorem applied to a concrete disabled-protocol
error, with listener 7 subscribed. -/
theorem c7_handler_errors_caught_witness :
    ((alGet (processTask noProtocolHandlers sSubscribed "task-0" reqSignals).tasks
        "task-0").map fun t => t.status.state) = some .failed ∧
    logsOf (processTask noProtocolHandlers sSubscribed "task-0" reqSignals) 7 =
      logsOf sSubscribed 7 ++
        [.error "NOT_IMPLEMENTED" "Signals protocol not enabled" sSubscribed.clock] :=
  ⟨(c7_handler_errors_caught noProtocolHandlers sSubscribed "task-0" reqSignals
      task0Created (.adcp "NOT_IMPLEMENTED" "Signals protocol not enabled")
      (by decide) (by rfl)).1,
   (c7_handler_errors_caught noProtocolHandlers sSubscribed "task-0" reqSignals
      task0Created (.adcp "NOT_IMPLEMENTED" "Signals protocol not enabled")
      (by decide) (by rfl)).2.2 0 [7] 7 (by decide) (by decide)
      (by decide) (by decide)⟩

/-- C6 (counterexample): with a webhook configured and a handler that
declares the non-terminal resulting status `input-required`, the engine still
makes exactly one webhook attempt — and stamps it `event == "completed"` —
even though the task did not transition into a terminal state. -/
theorem c6_webhook_counterexample :
    ((alGet sInputRequired.tasks "task-0").map fun t => t.status.state) =
      some .inputRequired ∧
    (sInputRequired.webhooks.map fun p => p.event) = ["completed"] := by
  exact ⟨rfl, rfl⟩

/-- C6 (amended): for a task with a webhook configuration, exactly one
delivery attempt is made per execution step, when the handler settles:
event `"failed"` when the handler threw, event `"completed"` when the handler
succeeded — regardless of whether the handler's declared resulting status is
terminal; with no webhook configuration no attempt is made, and no other
engine operation (create, cancel, continue, subscribe) ever attempts a
delivery, so in particular none is made for the intermediate `working`
status. -/
theorem c6_webhook_amended (h : Handlers) (s : ServerState) (tid : String)
    (req : A2aTaskRequest) (task : A2aTask) (hT : alGet s.tasks tid = some task) :
    (req.webhook = none → (processTask h s tid req).webhooks = s.webhooks) ∧
    (∀ w, req.webhook = some w →
      (processTask h s tid req).webhooks.length = s.webhooks.length + 1 ∧
      ((processTask h s tid req).webhooks.getLast?).map
          (fun p => (p.taskId, p.event)) =
        some (tid, match executeSkill h (parseSkillInvocation req) with
                   | .ok _ => "completed"
                   | .error _ => "failed")) ∧
    (∀ q pr, (createTask s q pr).1.webhooks = s.webhooks) ∧
    (cancelTask s tid).1.webhooks = s.webhooks ∧
    (∀ parts, (continueTask s tid parts).1.webhooks = s.webhooks) ∧
    (∀ l, (subscribeToTask s tid l).1.webhooks = s.webhooks) := by
  refine ⟨?_, ?_, fun q pr => createTask_webhooks s q pr,
    cancelTask_webhooks s tid, fun parts => continueTask_webhooks s tid parts,
    fun l => subscribeToTask_webhooks s tid l⟩
  · intro hw
    unfold processTask
    simp only [hT]
    cases hex : executeSkill h (parseSkillInvocation req) with
    | error e => simp [hw, failTask_webhooks]
    | ok r =>
        cases hart : r.artifact with
        | none => simp [hw, hart, completeTask_webhooks]
        | some a => simp [hw, hart, completeTask_webhooks, emitEvent_webhooks]
  · intro w hw
    unfold processTask
    simp only [hT]
    cases hex : executeSkill h (parseSkillInvocation req) with
    | error e =>
        constructor
        · simp [hw, sendWebhook, failTask_webhooks]
        · simp [hw, sendWebhook, failTask_webhooks, List.getLast?_concat]
    | ok r =>
        cases hart : r.artifact with
        | none =>
            constructor
            · simp [hw, hart, sendWebhook, completeTask_webhooks]
            · simp [hw, hart, sendWebhook, completeTask_webhooks,
                List.getLast?_concat]
        | some a =>
            constructor
            · simp [hw, hart, sendWebhook, completeTask_webhooks,
                emitEvent_webhooks]
            · simp [hw, hart, sendWebhook, completeTask_webhooks,
                emitEvent_webhooks, List.getLast?_concat]

/-- C6 (witness): the amended webhook theorem applied to the concrete
input-required scenario (one attempt, event `"completed"`) and to the no-
webhook scenario (no attempt). -/
theorem c6_webhook_amended_witness :
    (sInputRequired.webhooks.length = sCreatedWebhook.webhooks.length + 1 ∧
      (sInputRequired.webhooks.getLast?).map (fun p => (p.taskId, p.event)) =
        some ("task-0", match executeSkill inputRequiredHandlers
            (parseSkillInvocation reqWebhook) with
          | .ok _ => "completed"
          | .error _ => "failed")) ∧
    (processTask okHandlers sCreated "task-0" reqSignals).webhooks =
      sCreated.webhooks :=
  ⟨(c6_webhook_amended inputRequiredHandlers sCreatedWebhook "task-0" reqWebhook
      task0CreatedWebhook (by decide)).2.1 ⟨"https://example.test/hook"⟩ rfl,
   (c6_webhook_amended okHandlers sCreated "task-0" reqSignals task0Created
      (by decide)).1 rfl⟩

/-- C8: a subscriber registered immediately after Create Task receives, on
the synchronous-handler success path, exactly: a `status` event with state
`working` (the replayed current status), then the `message` event carrying
the engine-role response, then the `complete` event — and, in general, one
`emitEvent` appends the published event to the log of every currently
registered subscriber, so each subscriber's log lists the events in exactly
the order the engine produced them, never reordered or batched. -/
theorem c8_event_order :
    logsOf sCompleted 7 =
      [.status ⟨.working, "Processing request", 0⟩ 1,
       .message msgAgentOk 2,
       .complete ⟨"task-0", ⟨.completed, "Task completed successfully", 2⟩,
         some [msgUserHi, msgAgentOk], some []⟩ 2] ∧
    (∀ (s : ServerState) (tid : String) (sid : Nat) (ls : List Nat) (l : Nat)
        (e : SseEvent), alGet s.busByTask tid = some sid →
      alGet s.busSets sid = some ls → ls.Nodup → l ∈ ls →
      logsOf (emitEvent s tid e) l = logsOf s l ++ [e]) := by
  constructor
  · rfl
  · intro s tid sid ls l e h1 h2 hnd hl
    exact logsOf_emitEvent_registered s tid sid ls l e h1 h2 hnd hl

/-- C8 (witness): the in-order delivery conjunct applied to the concrete
subscribed server and probe event. -/
theorem c8_event_order_witness :
    logsOf (emitEvent sSubscribed "task-0" evProbe) 7 =
      logsOf sSubscribed 7 ++ [evProbe] :=
  c8_event_order.2 sSubscribed "task-0" 0 [7] 7 evProbe (by decide) (by decide)
    (by decide) (by decide)

/-- C10 (counterexample): calling the unsubscribe function a second time is
*not* always a safe no-op.  Listener 1 subscribes to the unknown id `"t"`
and unsubscribes (emptying and removing the map entry); listener 2 then
subscribes, creating a fresh `Set` under the same id; the second call of
listener 1's stale unsubscribe closure sees its captured (empty) `Set` and
deletes the `taskListeners` entry — which now holds listener 2's set — so a
subsequently published event no longer reaches listener 2. -/
theorem c10_unsubscribe_counterexample :
    logsOf (emitEvent subSecond.1 "t" evProbe) 2 = [evProbe] ∧
    alGet subSecond.1.busByTask "t" = some 1 ∧
    alGet sDoubleUnsub.busByTask "t" = none ∧
    logsOf (emitEvent sDoubleUnsub "t" evProbe) 2 = [] := by
  exact ⟨rfl, rfl, rfl, rfl⟩

/-- C10 (amended): Subscribe with a task id not in the store registers the
callback (it is in the listener set `emitEvent` will use, so it receives
events later published under that id) and delivers no initial synthetic
status event; the returned unsubscribe function removes the listener from its
set; calling the unsubscribe function again immediately (on the state the
first call produced) is a no-op — but if a new subscriber set was created for
that task id in between, the second call detaches it (see counterexample). -/
theorem c10_subscribe_unsubscribe_amended :
    (∀ (s : ServerState) (tid : String) (l : Nat), alGet s.tasks tid = none →
      logsOf (subscribeToTask s tid l).1 l = logsOf s l ∧
      Registered (subscribeToTask s tid l).1 tid l) ∧
    (∀ (s : ServerState) (tid : String) (l : Nat) (ls : List Nat),
      alGet (unsubscribe (subscribeToTask s tid l).1
          (subscribeToTask s tid l).2).busSets (subscribeToTask s tid l).2.setId
        = some ls → l ∉ ls) ∧
    (∀ (s : ServerState) (u : UnsubToken),
      unsubscribe (unsubscribe s u) u = unsubscribe s u) := by
  refine ⟨?_, ?_, ?_⟩
  · intro s tid l h
    cases hb : alGet s.busByTask tid with
    | none =>
        constructor
        · simp [subscribeToTask, hb, h, logsOf]
        · exact ⟨s.nextSetId, setAdd [] l,
            by simp [subscribeToTask, hb, h, alGet_alInsert_self],
            by simp [subscribeToTask, hb, h, alGet_alInsert_self],
            mem_setAdd_self _ _⟩
    | some sid =>
        constructor
        · simp [subscribeToTask, hb, h, logsOf]
        · exact ⟨sid, setAdd ((alGet s.busSets sid).getD []) l,
            by simp [subscribeToTask, hb, h],
            by simp [subscribeToTask, hb, h, alGet_alInsert_self],
            mem_setAdd_self _ _⟩
  · intro s tid l ls hget
    obtain ⟨S, hS⟩ := subscribe_busSets_lookup s tid l
    exact unsubscribe_removes _ _ _ ls hS hget
  · intro s u
    cases hset : alGet s.busSets u.setId with
    | none =>
        have h1 : unsubscribe s u = s := by
          unfold unsubscribe
          simp [hset]
        rw [h1, h1]
    | some ls =>
        rw [unsubscribe_eq s u ls hset]
        by_cases he : (ls.filter fun x => ¬(x == u.listener)).isEmpty
        · rw [if_pos he]
          rw [unsubscribe_eq _ u (ls.filter fun x => ¬(x == u.listener))
            (by simp [alGet_alInsert_self])]
          rw [if_pos (by rw [filter_idem]; exact he)]
          simp [filter_idem, alInsert_idem, alErase_idem]
        · rw [if_neg he]
          rw [unsubscribe_eq _ u (ls.filter fun x => ¬(x == u.listener))
            (by simp [alGet_alInsert_self])]
          rw [if_neg (by rw [filter_idem]; exact he)]
          simp [filter_idem, alInsert_idem]

/-- C10 (witness): the amended subscribe/unsubscribe theorem applied to the
concrete unknown-id subscription and its immediate double unsubscribe. -/
theorem c10_subscribe_unsubscribe_amended_witness :
    (logsOf (subscribeToTask ServerState.init "t" 1).1 1 =
        logsOf ServerState.init 1 ∧
      Registered (subscribeToTask ServerState.init "t" 1).1 "t" 1) ∧
    unsubscribe (unsubscribe subFirst.1 subFirst.2) subFirst.2 =
      unsubscribe subFirst.1 subFirst.2 :=
  ⟨c10_subscribe_unsubscribe_amended.1 ServerState.init "t" 1 (by decide),
   c10_subscribe_unsubscribe_amended.2.2 subFirst.1 subFirst.2⟩

end Adcp
